import Mathlib

/-!
Verification of the SAE restaurant search core (src/sae.py).

Shallow embedding of the two core components of `sae.py`:

* the PostgreSQL-backed query cache (`update_cache`, `check_cache`,
  table `rhistory`), and
* the heap-based top-3 nearest-restaurant selector
  (`search_restaurants`), together with the main query flow
  (section F of the script).

Modelling conventions:

* Latitudes, longitudes and distances are rationals (`ℚ`), abstracting
  the exact real values; binary floating point noise is outside the
  model.  The `NUMERIC(10, 6)` columns of `rhistory` are modelled
  faithfully: values are rounded to 6 decimal places on insert
  (PostgreSQL numeric rounding is round-half-away-from-zero), while the
  query bounds `lat ± 0.001` of `check_cache` are computed from the
  unrounded query coordinate, exactly as in the source.
* The geodesic distance (`geopy.geodesic(...).km`, an external library
  call) is abstracted as an arbitrary function parameter `distFn`.
* The JSON serialisation of the top-3 list into the hstore key
  `results_json` round-trips `json.dumps`/`json.loads` exactly for the
  dictionaries produced here, so the payload is modelled as the list
  itself; a decode failure (SerializationFault) is a backend flag.
* Collaborator failures (dead connection, failing SQL statements,
  undecodable payload) are modelled as flags on the backend state; the
  bodies of the `try:` blocks are written in the `Except` monad and the
  surrounding `except Exception:` handlers are the points where the
  `Except` value is eliminated, exactly mirroring where the source
  catches.
* Timestamps (`CURRENT_TIMESTAMP`) are strictly monotone across
  inserts (`clock`), so the most recent matching row is well defined.
* The selector heap is modelled twice: an order-based abstraction (a
  sorted list of tuples under a totalised comparison) carrying the
  size, ordering and eviction properties, and a crash-aware
  transcription of CPython heapq (`heappushPy`, `heapreplacePy`,
  `heappopPy` with the real sift loops) in which comparing a null
  cuisine against a string cuisine at equal distance and name raises,
  as Python does; the `except` at lines 521-523 turns that into the
  plain `([], 0)` return.
-/

namespace SAE

/-- A result dictionary as built by `search_restaurants`
(line 514 of sae.py):
`name` / `distance_km` / `type cuisine` (the raw, unnormalised
cuisine value, which may be null). -/
structure RankedResult where
  name : String
  distance_km : ℚ
  cuisine : Option String
deriving DecidableEq, Repr

/-- One row of the `rhistory` cache table: coordinates stored in
`NUMERIC(10, 6)` columns, nullable cuisine, the serialised top-3
payload, and the creation timestamp. -/
structure CacheEntry where
  lat : ℚ
  lon : ℚ
  cuisine : Option String
  payload : List RankedResult
  createdAt : ℕ
deriving DecidableEq, Repr

/-- State of the PostgreSQL collaborator as seen by the cache
functions.  `connected = false` models `pg_conn is None`; the `fail*`
flags model the individual SQL statements raising inside the `try:`
bodies, and `corruptPayload` models `json.loads` failing on the stored
hstore value. -/
structure PgBackend where
  connected : Bool
  entries : List CacheEntry
  clock : ℕ
  failCount : Bool
  failDelete : Bool
  failInsert : Bool
  failSelect : Bool
  corruptPayload : Bool
deriving DecidableEq, Repr

/-- Rounding to 6 decimal places, half away from zero: the conversion
applied by PostgreSQL when a value is stored into a
`NUMERIC(10, 6)` column (lines 61-62 of sae.py). -/
def pgRound6 (q : ℚ) : ℚ :=
  if 0 ≤ q then (⌊q * 1000000 + 1/2⌋ : ℚ) / 1000000
  else -((⌊-q * 1000000 + 1/2⌋ : ℚ) / 1000000)

/-- The cache tolerance `0.001` used by `check_cache` (lines 372-375). -/
def tol : ℚ := 1/1000

/-- The `INSERT INTO rhistory` statement of `update_cache`
(lines 337-343): append one row holding the rounded coordinates, the
null-normalised cuisine and the first three results; raises when the
insert fails. -/
def insertRow (b : PgBackend) (lat lon : ℚ) (cuisine : String)
    (results : List RankedResult) : Except PgBackend PgBackend :=
  if b.failInsert then .error b
  else
    .ok { b with
      entries := b.entries ++
        [{ lat := pgRound6 lat
           lon := pgRound6 lon
           cuisine := if cuisine = "" then none else some cuisine
           payload := results.take 3
           createdAt := b.clock }]
      clock := b.clock + 1 }

/-- Body of the `try:` block of `update_cache` (lines 314-345):
count the rows, delete all of them if the count is at least 20, then
insert one new row.  A raised exception carries the backend state at
the point of failure, since `autocommit = True` makes every completed
statement durable. -/
def update_cacheE (b : PgBackend) (lat lon : ℚ) (cuisine : String)
    (results : List RankedResult) : Except PgBackend PgBackend :=
  if b.failCount then .error b
  else if b.entries.length ≥ 20 then
    if b.failDelete then .error b
    else insertRow { b with entries := [] } lat lon cuisine results
  else insertRow b lat lon cuisine results

/-- Function `update_cache(lat, lon, cuisine, results)` (lines 296-347): a
no-op when the connection is absent; otherwise the `try:` body with
the trailing `except Exception:` handler, which logs and returns
normally. -/
def update_cache (b : PgBackend) (lat lon : ℚ) (cuisine : String)
    (results : List RankedResult) : PgBackend :=
  if b.connected then
    match update_cacheE b lat lon cuisine results with
    | .ok b' => b'
    | .error bErr => bErr
  else b

/-- The `WHERE` clause of the `check_cache` query (lines 381-402):
`latitude BETWEEN lat - 0.001 AND lat + 0.001`, likewise for the
longitude (both bounds inclusive), and `cuisine = %s` when the filter
is non-empty, `cuisine IS NULL` otherwise. -/
def entryMatches (e : CacheEntry) (lat lon : ℚ) (cuisine : String) : Bool :=
  decide (lat - tol ≤ e.lat) && decide (e.lat ≤ lat + tol) &&
  decide (lon - tol ≤ e.lon) && decide (e.lon ≤ lon + tol) &&
  (if cuisine = "" then e.cuisine == none else e.cuisine == some cuisine)

/-- One accumulation step of the `ORDER BY created_at DESC LIMIT 1`
selection: keep the row with the greater creation timestamp.  SQL
leaves equal-timestamp ordering unspecified; the model lets a later
row win ties, immaterial because rows written by `update_cache` carry
strictly increasing timestamps. -/
def latestPick (acc : Option CacheEntry) (e : CacheEntry) :
    Option CacheEntry :=
  match acc with
  | none => some e
  | some a => if a.createdAt ≤ e.createdAt then some e else some a

/-- Selection `ORDER BY created_at DESC LIMIT 1`: the row with the greatest
creation timestamp, `none` on an empty match set. -/
def latestEntry (l : List CacheEntry) : Option CacheEntry :=
  l.foldl latestPick none

/-- Body of the `try:` block of `check_cache` (lines 367-412): run the
`SELECT` restricted by `entryMatches`, keep the most recent matching
row, then decode the payload of the row if one was found. -/
def check_cacheE (b : PgBackend) (lat lon : ℚ) (cuisine : String) :
    Except Unit (Option (List RankedResult)) :=
  if b.failSelect then .error () else
    match latestEntry (b.entries.filter fun e => entryMatches e lat lon cuisine) with
    | none => .ok none
    | some e => if b.corruptPayload then .error () else .ok (some e.payload)

/-- Function `check_cache(lat, lon, cuisine)` (lines 350-415): `None` when the
connection is absent, otherwise the `try:` body with the trailing
`except Exception:` handler returning `None` (cache miss). -/
def check_cache (b : PgBackend) (lat lon : ℚ) (cuisine : String) :
    Option (List RankedResult) :=
  if b.connected then
    match check_cacheE b lat lon cuisine with
    | .ok r => r
    | .error _ => none
  else none

/-- A backend with a live connection and no pending failures. -/
def PgBackend.ok (b : PgBackend) : Prop :=
  b.connected = true ∧ b.failCount = false ∧ b.failDelete = false ∧
  b.failInsert = false ∧ b.failSelect = false ∧ b.corruptPayload = false

instance : DecidablePred PgBackend.ok := fun b => by
  unfold PgBackend.ok; infer_instance

/-- The empty, healthy backend used by concrete scenarios. -/
def emptyBackend : PgBackend :=
  { connected := true, entries := [], clock := 0, failCount := false
    failDelete := false, failInsert := false, failSelect := false
    corruptPayload := false }

/-- A restaurant document as consumed by `search_restaurants` after
projection (lines 447-453): optional name (`resto.get` with the
placeholder default `Sans nom`), optional raw cuisine, and the
coordinate pair, which is
`none` when the nested `address.coord.coordinates` extraction raises
`KeyError`, `IndexError` or `TypeError` (lines 466-471).  The stored
pair is `(latitude, longitude)`, i.e. `(coordinates[1],
coordinates[0])`. -/
structure Candidate where
  name : Option String
  cuisine : Option String
  coords : Option (ℚ × ℚ)
deriving DecidableEq, Repr

/-- Cuisine normalisation of lines 477-480: null becomes the empty
string, otherwise strip then lowercase.  `String.trim`/`toLower`
model the Python `strip()`/`lower()` calls (identical on ASCII
data). -/
def normCuisine : Option String → String
  | none => ""
  | some s => s.trim.toLower

/-- The match condition of line 483 combined with the coordinate
extraction of lines 466-471: a candidate counts when its coordinates
are extractable and `(not user_cuisine) or (user_cuisine ==
resto_cuisine_safe)` holds. -/
def passes (filter : String) (c : Candidate) : Bool :=
  c.coords.isSome && (filter == "" || filter == normCuisine c.cuisine)

/-- A tuple pushed on the heap at lines 501/505:
`(-distance, resto_name, resto_cuisine)`. -/
abbrev HeapEntry := ℚ × String × Option String

/-- Ordering of the third tuple component, for the order-based heap
abstraction.  Python tuple comparison only reaches this component
when distance and name are both equal, and raises `TypeError` when
exactly one side is `None`; this relation totalises that case as
null-first, which is observationally correct exactly on streams where
no such comparison occurs.  The faithful partial comparison, with the
raising case, is `pyLt` below, and the crash-aware selector built on
it (`selectPy`, `search_restaurants_py`) settles the match-count
behaviour of crashing streams. -/
def cuLE : Option String → Option String → Prop
  | none, _ => True
  | some _, none => False
  | some a, some b => a ≤ b

instance : DecidableRel cuLE := fun a b => by
  cases a <;> cases b <;> unfold cuLE <;> infer_instance

/-- Lexicographic comparison of heap tuples, as performed by
`heapq` on `(-distance, name, cuisine)` tuples (Python compares
component by component, strings by code point). -/
def heapLE (a b : HeapEntry) : Prop :=
  a.1 < b.1 ∨ (a.1 = b.1 ∧ (a.2.1 < b.2.1 ∨ (a.2.1 = b.2.1 ∧ cuLE a.2.2 b.2.2)))

instance : DecidableRel heapLE := fun a b => by
  unfold heapLE; infer_instance

instance : IsRefl HeapEntry heapLE :=
  ⟨fun a => Or.inr ⟨rfl, Or.inr ⟨rfl, by cases a.2.2 <;> simp [cuLE]⟩⟩⟩

instance : IsTotal HeapEntry heapLE := by
  refine ⟨fun a b => ?_⟩
  have hcu : cuLE a.2.2 b.2.2 ∨ cuLE b.2.2 a.2.2 := by
    rcases a.2.2 with - | x <;> rcases b.2.2 with - | y <;> simp [cuLE]
    exact le_total _ _
  rcases lt_trichotomy a.1 b.1 with h | h | h
  · exact Or.inl (Or.inl h)
  · rcases lt_trichotomy a.2.1 b.2.1 with h2 | h2 | h2
    · exact Or.inl (Or.inr ⟨h, Or.inl h2⟩)
    · rcases hcu with h3 | h3
      · exact Or.inl (Or.inr ⟨h, Or.inr ⟨h2, h3⟩⟩)
      · exact Or.inr (Or.inr ⟨h.symm, Or.inr ⟨h2.symm, h3⟩⟩)
    · exact Or.inr (Or.inr ⟨h.symm, Or.inl h2⟩)
  · exact Or.inr (Or.inl h)

instance : IsTrans HeapEntry heapLE := by
  refine ⟨fun a b c h1 h2 => ?_⟩
  have hcu : cuLE a.2.2 b.2.2 → cuLE b.2.2 c.2.2 → cuLE a.2.2 c.2.2 := by
    rcases a.2.2 with - | x <;> rcases b.2.2 with - | y <;>
      rcases c.2.2 with - | z <;> simp [cuLE]
    exact le_trans
  rcases h1 with h1 | ⟨e1, h1⟩ <;> rcases h2 with h2 | ⟨e2, h2⟩
  · exact Or.inl (lt_trans h1 h2)
  · exact Or.inl (e2 ▸ h1)
  · exact Or.inl (e1 ▸ h2)
  · refine Or.inr ⟨e1.trans e2, ?_⟩
    rcases h1 with h1 | ⟨f1, h1⟩ <;> rcases h2 with h2 | ⟨f2, h2⟩
    · exact Or.inl (lt_trans h1 h2)
    · exact Or.inl (f2 ▸ h1)
    · exact Or.inl (f1 ▸ h2)
    · exact Or.inr ⟨f1.trans f2, hcu h1 h2⟩

/-- Model of `heapq.heappush` (line 501), observed through the multiset of
held tuples: a size-at-most-3 `heapq` heap is fully described by its
sorted content, since the only observations the source makes are
`len(heap)`, `heap[0]` (the minimum) and the sequence of `heappop`
results (ascending order). -/
def heapPush (e : HeapEntry) (h : List HeapEntry) : List HeapEntry :=
  List.orderedInsert heapLE e h

/-- One iteration of the scan loop of `search_restaurants`
(lines 464-505), acting on the pair (heap, total_count): skip the
candidate when the coordinates are missing or the cuisine filter
rejects it; otherwise count it and either push (fewer than 3 held,
line 501), replace the worst (strictly smaller distance, lines
504-505: `heapq.heapreplace` pops the minimum tuple, i.e. the
largest distance, then pushes) or drop it. -/
def selectStep (distFn : ℚ × ℚ → ℚ × ℚ → ℚ) (origin : ℚ × ℚ)
    (filter : String) (st : List HeapEntry × ℕ) (c : Candidate) :
    List HeapEntry × ℕ :=
  match c.coords with
  | none => st
  | some pos =>
    if filter == "" || filter == normCuisine c.cuisine then
      let d := distFn origin pos
      let e : HeapEntry := (-d, c.name.getD "Sans nom", c.cuisine)
      if st.1.length < 3 then (heapPush e st.1, st.2 + 1)
      else if d < -st.1.headI.1 then (heapPush e st.1.tail, st.2 + 1)
      else (st.1, st.2 + 1)
    else st

/-- The heap-to-output conversion of lines 509-519: pop everything
(ascending tuple order, i.e. the sorted heap list itself), build the
result dictionaries, then `reverse()`. -/
def heapToResults (h : List HeapEntry) : List RankedResult :=
  (h.map fun e => { name := e.2.1, distance_km := -e.1, cuisine := e.2.2 }).reverse

/-- The candidate scan and result assembly of `search_restaurants`
(lines 458-519) on a successfully iterated candidate list. -/
def select (distFn : ℚ × ℚ → ℚ × ℚ → ℚ) (origin : ℚ × ℚ)
    (filter : String) (cands : List Candidate) : List RankedResult × ℕ :=
  let st := cands.foldl (selectStep distFn origin filter) ([], 0)
  (heapToResults st.1, st.2)

/-- Outcome of `collection.find({}, projection)` plus the iteration
over the cursor: either the full document list, or a raised exception
(store unreachable mid-scan, broken cursor), which the source catches
at lines 521-523, discarding any half-filled heap. -/
inductive MongoScan where
  | fail : MongoScan
  | docs : List Candidate → MongoScan
deriving DecidableEq, Repr

/-- Function `search_restaurants(user_position, user_cuisine)` (lines
423-525): `([], 0)` when MongoDB is not connected (lines 443-444),
`([], 0)` when the scan raises (lines 521-523), and the selector
result otherwise.  The return type is exactly the contract of the
source: a plain `(results, total_count)` pair with no further
channel. -/
def search_restaurants (distFn : ℚ × ℚ → ℚ × ℚ → ℚ) (connected : Bool)
    (scan : MongoScan) (origin : ℚ × ℚ) (filter : String) :
    List RankedResult × ℕ :=
  if connected then
    match scan with
    | .fail => ([], 0)
    | .docs cands => select distFn origin filter cands
  else ([], 0)

/-- The main query flow, sections F and G of sae.py (lines 539-584):
probe the cache; a truthy (non-`None`, non-empty) cached list is a
hit served as-is; otherwise run the live search when MongoDB is
connected, re-sort the live results by distance (line 569; a stable
sort, as in Python), and write them back to the cache only when
non-empty (line 583).  Returns
(results, total_found, cache_hit, final backend state). -/
def runQuery (distFn : ℚ × ℚ → ℚ × ℚ → ℚ) (b : PgBackend)
    (connected : Bool) (scan : MongoScan) (lat lon : ℚ) (cu : String) :
    List RankedResult × ℕ × Bool × PgBackend :=
  match check_cache b lat lon cu with
  | some (r :: rs) => (r :: rs, (r :: rs).length, true, b)
  | _ =>
    if connected then
      let live := search_restaurants distFn connected scan (lat, lon) cu
      let sorted :=
        live.1.mergeSort fun a b => decide (a.distance_km ≤ b.distance_km)
      if sorted.isEmpty then (sorted, live.2, false, b)
      else (sorted, live.2, false, update_cache b lat lon cu sorted)
    else ([], 0, false, b)

/-- The dictionary built from a popped heap tuple (lines 513-518). -/
def toRanked (e : HeapEntry) : RankedResult :=
  { name := e.2.1, distance_km := -e.1, cuisine := e.2.2 }

/-- Invariant of the scan loop: the heap is kept sorted and its size
equals `min total_count 3`. -/
def SelInv (st : List HeapEntry × ℕ) : Prop :=
  st.1.Sorted heapLE ∧ st.1.length = min st.2 3

/-- A sequence of `update_cache` calls at the given coordinates, all
with the same cuisine-less single-result payload. -/
def storeMany (b : PgBackend) (coords : List (ℚ × ℚ)) : PgBackend :=
  coords.foldl (fun b p => update_cache b p.1 p.2 "" [⟨"A", 1, none⟩]) b

/-- Builds `n` pairwise distinct coordinates inside the service region. -/
def scenarioCoords (n : ℕ) : List (ℚ × ℚ) :=
  (List.range n).map fun i : ℕ => (40 + (i : ℚ) / 1000, -74)

/-- A healthy backend whose single cached row carries an empty
payload list. -/
def emptyPayloadBackend : PgBackend :=
  { emptyBackend with entries := [⟨40, -74, none, [], 0⟩] }

/-- Python tuple less-than on heap tuples, component by component
with equality first (as CPython does): `none` models the `TypeError`
raised when the comparison reaches the cuisine components and exactly
one of them is null, which happens only at equal distance and equal
name.  Two fully equal tuples compare as not-less. -/
def pyLt (a b : HeapEntry) : Option Bool :=
  if a.1 = b.1 then
    if a.2.1 = b.2.1 then
      match a.2.2, b.2.2 with
      | none, none => some false
      | some x, some y => some (decide (x < y))
      | _, _ => none
    else some (decide (a.2.1 < b.2.1))
  else some (decide (a.1 < b.1))

/-- Transcription of CPython `heapq._siftdown(heap, startpos, pos)`
over the backing list, in the raising-comparison monad: walk the new
item up from `pos`, moving each strictly greater parent down.  The
`fuel` argument only bounds the loop; any `fuel > pos` never runs
out, since the position shrinks every iteration. -/
def siftdownPy (fuel : ℕ) (heap : List HeapEntry) (startpos pos : ℕ)
    (newitem : HeapEntry) : Except Unit (List HeapEntry) :=
  match fuel with
  | 0 => .ok (heap.set pos newitem)
  | fuel + 1 =>
    if startpos < pos then
      let parentpos := (pos - 1) / 2
      let parent := heap.getD parentpos default
      match pyLt newitem parent with
      | none => .error ()
      | some true =>
        siftdownPy fuel (heap.set pos parent) startpos parentpos newitem
      | some false => .ok (heap.set pos newitem)
    else .ok (heap.set pos newitem)

/-- The child-bubbling loop of CPython `heapq._siftup`: move the
smaller child up into the hole until the hole reaches the bottom,
returning the updated list and the final hole position.  Selecting
the smaller child compares the two children, which can raise. -/
def siftupGoPy (fuel : ℕ) (heap : List HeapEntry) (pos : ℕ) :
    Except Unit (List HeapEntry × ℕ) :=
  match fuel with
  | 0 => .ok (heap, pos)
  | fuel + 1 =>
    let endpos := heap.length
    let childpos := 2 * pos + 1
    if childpos < endpos then
      let rightpos := childpos + 1
      let pick : Except Unit ℕ :=
        if rightpos < endpos then
          match pyLt (heap.getD childpos default)
              (heap.getD rightpos default) with
          | none => .error ()
          | some true => .ok childpos
          | some false => .ok rightpos
        else .ok childpos
      match pick with
      | .error _ => .error ()
      | .ok c => siftupGoPy fuel (heap.set pos (heap.getD c default)) c
    else .ok (heap, pos)

/-- Transcription of CPython `heapq._siftup(heap, pos)`: bubble the
hole at `pos` to the bottom, drop the item there and sift it back
down towards `pos`. -/
def siftupPy (heap : List HeapEntry) (pos : ℕ) (newitem : HeapEntry) :
    Except Unit (List HeapEntry) :=
  match siftupGoPy heap.length heap pos with
  | .error _ => .error ()
  | .ok (h, p) => siftdownPy (p + 1) (h.set p newitem) pos p newitem

/-- Transcription of CPython `heapq.heappush` (line 501 of sae.py):
append the item, then sift it down towards the root. -/
def heappushPy (heap : List HeapEntry) (item : HeapEntry) :
    Except Unit (List HeapEntry) :=
  let h := heap ++ [item]
  siftdownPy h.length h 0 (h.length - 1) item

/-- Transcription of CPython `heapq.heapreplace` (line 505 of
sae.py): overwrite the root with the item and sift up; the popped
return value is ignored by the source. -/
def heapreplacePy (heap : List HeapEntry) (item : HeapEntry) :
    Except Unit (List HeapEntry) :=
  siftupPy (heap.set 0 item) 0 item

/-- Transcription of CPython `heapq.heappop` (line 513 of sae.py):
remove the last element; on a non-empty remainder return the root,
move the last element there and sift up. -/
def heappopPy (heap : List HeapEntry) :
    Except Unit (HeapEntry × List HeapEntry) :=
  match heap.getLast? with
  | none => .error ()
  | some lastelt =>
    let rest := heap.dropLast
    if rest.length = 0 then .ok (lastelt, [])
    else
      let returnitem := rest.getD 0 default
      match siftupPy (rest.set 0 lastelt) 0 lastelt with
      | .error _ => .error ()
      | .ok h => .ok (returnitem, h)

/-- One iteration of the scan loop of `search_restaurants` (lines
464-505) over the crash-aware heap: identical control flow to
`selectStep` (count first, then push, replace or drop), except that
the heap operations can raise, aborting the whole scan. -/
def selectStepPy (distFn : ℚ × ℚ → ℚ × ℚ → ℚ) (origin : ℚ × ℚ)
    (filter : String) (st : List HeapEntry × ℕ) (c : Candidate) :
    Except Unit (List HeapEntry × ℕ) :=
  match c.coords with
  | none => .ok st
  | some pos =>
    if filter == "" || filter == normCuisine c.cuisine then
      let d := distFn origin pos
      let e : HeapEntry := (-d, c.name.getD "Sans nom", c.cuisine)
      if st.1.length < 3 then
        match heappushPy st.1 e with
        | .error _ => .error ()
        | .ok h => .ok (h, st.2 + 1)
      else if d < -st.1.headI.1 then
        match heapreplacePy st.1 e with
        | .error _ => .error ()
        | .ok h => .ok (h, st.2 + 1)
      else .ok (st.1, st.2 + 1)
    else .ok st

/-- The candidate loop of `search_restaurants` in the raising
monad. -/
def scanPy (distFn : ℚ × ℚ → ℚ × ℚ → ℚ) (origin : ℚ × ℚ)
    (filter : String) :
    List HeapEntry × ℕ → List Candidate → Except Unit (List HeapEntry × ℕ)
  | st, [] => .ok st
  | st, c :: cs =>
    match selectStepPy distFn origin filter st c with
    | .error _ => .error ()
    | .ok st' => scanPy distFn origin filter st' cs

/-- The output loop of lines 511-518: pop everything (which can also
raise, still inside the same `try:`), appending in pop order. -/
def popAllPy (fuel : ℕ) (heap : List HeapEntry)
    (acc : List RankedResult) : Except Unit (List RankedResult) :=
  match fuel with
  | 0 => .ok acc
  | fuel + 1 =>
    if heap.isEmpty then .ok acc
    else
      match heappopPy heap with
      | .error _ => .error ()
      | .ok (e, h) => popAllPy fuel h (acc ++ [toRanked e])

/-- The body of the `try:` block of `search_restaurants` (lines
461-519) over the crash-aware heap: scan, pop, reverse. -/
def selectPy (distFn : ℚ × ℚ → ℚ × ℚ → ℚ) (origin : ℚ × ℚ)
    (filter : String) (cands : List Candidate) :
    Except Unit (List RankedResult × ℕ) :=
  match scanPy distFn origin filter ([], 0) cands with
  | .error _ => .error ()
  | .ok (heap, cnt) =>
    match popAllPy heap.length heap [] with
    | .error _ => .error ()
    | .ok res => .ok (res.reverse, cnt)

/-- `search_restaurants` over the crash-aware heap: the `except` at
lines 521-523 turns a raising comparison into the plain `([], 0)`
return, exactly as it does for a failing cursor. -/
def search_restaurants_py (distFn : ℚ × ℚ → ℚ × ℚ → ℚ)
    (connected : Bool) (scan : MongoScan) (origin : ℚ × ℚ)
    (filter : String) : List RankedResult × ℕ :=
  if connected then
    match scan with
    | .fail => ([], 0)
    | .docs cands =>
      match selectPy distFn origin filter cands with
      | .ok r => r
      | .error _ => ([], 0)
  else ([], 0)

/-! ## Heap and selector lemmas -/

theorem heapLE_fst {a b : HeapEntry} (h : heapLE a b) : a.1 ≤ b.1 := by
  rcases h with h | ⟨h, _⟩
  · exact le_of_lt h
  · exact le_of_eq h

theorem heapLE_name {a b : HeapEntry} (h : heapLE a b) (he : a.1 = b.1) :
    a.2.1 ≤ b.2.1 := by
  rcases h with h | ⟨_, h | ⟨h, _⟩⟩
  · exact absurd h (he ▸ lt_irrefl _)
  · exact le_of_lt h
  · exact le_of_eq h

theorem heapPush_length (e : HeapEntry) (h : List HeapEntry) :
    (heapPush e h).length = h.length + 1 :=
  List.orderedInsert_length heapLE h e

theorem heapPush_sorted (e : HeapEntry) {h : List HeapEntry}
    (hs : h.Sorted heapLE) : (heapPush e h).Sorted heapLE :=
  hs.orderedInsert e h

theorem heapPush_perm (e : HeapEntry) (h : List HeapEntry) :
    (heapPush e h).Perm (e :: h) :=
  List.perm_orderedInsert heapLE e h

/-- In a sorted heap the head carries the least negated distance,
i.e. the largest distance: this is the `heap[0]` of the source. -/
theorem sorted_head_min {h : List HeapEntry} (hs : h.Sorted heapLE)
    (hne : h ≠ []) : ∀ e ∈ h, h.headI.1 ≤ e.1 := by
  cases h with
  | nil => exact absurd rfl hne
  | cons a t =>
    intro e he
    rcases List.mem_cons.mp he with rfl | ht
    · exact le_refl _
    · exact heapLE_fst (List.rel_of_sorted_cons hs e ht)


theorem selectStep_inv (distFn : ℚ × ℚ → ℚ × ℚ → ℚ) (origin : ℚ × ℚ)
    (filter : String) (c : Candidate) {st : List HeapEntry × ℕ}
    (h : SelInv st) : SelInv (selectStep distFn origin filter st c) := by
  obtain ⟨hs, hl⟩ := h
  unfold selectStep
  cases hc : c.coords with
  | none => exact ⟨hs, hl⟩
  | some pos =>
    dsimp only
    split
    · split
      · exact ⟨heapPush_sorted _ hs, by rw [heapPush_length]; omega⟩
      · split
        · refine ⟨heapPush_sorted _ hs.tail, ?_⟩
          rw [heapPush_length, List.length_tail]
          omega
        · exact ⟨hs, by dsimp only; omega⟩
    · exact ⟨hs, hl⟩

theorem foldl_inv (distFn : ℚ × ℚ → ℚ × ℚ → ℚ) (origin : ℚ × ℚ)
    (filter : String) (cands : List Candidate) (st : List HeapEntry × ℕ)
    (h : SelInv st) :
    SelInv (cands.foldl (selectStep distFn origin filter) st) := by
  induction cands generalizing st with
  | nil => exact h
  | cons c cs ih => exact ih _ (selectStep_inv distFn origin filter c h)

theorem selectStep_count (distFn : ℚ × ℚ → ℚ × ℚ → ℚ) (origin : ℚ × ℚ)
    (filter : String) (st : List HeapEntry × ℕ) (c : Candidate) :
    (selectStep distFn origin filter st c).2 =
      st.2 + (if passes filter c then 1 else 0) := by
  unfold selectStep passes
  cases hc : c.coords with
  | none => simp [hc]
  | some pos =>
    simp only [hc, Option.isSome_some, Bool.true_and]
    split
    · split
      · simp_all
      · split <;> simp_all
    · simp_all

theorem foldl_count (distFn : ℚ × ℚ → ℚ × ℚ → ℚ) (origin : ℚ × ℚ)
    (filter : String) (cands : List Candidate) (st : List HeapEntry × ℕ) :
    (cands.foldl (selectStep distFn origin filter) st).2 =
      st.2 + cands.countP (passes filter) := by
  induction cands generalizing st with
  | nil => simp
  | cons c cs ih =>
    rw [List.foldl_cons, ih, List.countP_cons, selectStep_count]
    split <;> simp_all <;> omega


/-- Bridge: any relation implied by the heap order, read backwards
through the final `reverse()`, holds pairwise on the output of
`search_restaurants`. -/
theorem results_pairwise (distFn : ℚ × ℚ → ℚ × ℚ → ℚ) (connected : Bool)
    (scan : MongoScan) (origin : ℚ × ℚ) (filter : String)
    {R : RankedResult → RankedResult → Prop}
    (hR : ∀ x y : HeapEntry, heapLE x y → R (toRanked y) (toRanked x)) :
    List.Pairwise R
      (search_restaurants distFn connected scan origin filter).1 := by
  unfold search_restaurants
  split
  · cases scan with
    | fail => simp
    | docs cands =>
      obtain ⟨hs, -⟩ := foldl_inv distFn origin filter cands
        ([], 0) ⟨List.sorted_nil, by simp⟩
      unfold select heapToResults
      dsimp only
      rw [List.pairwise_reverse, List.pairwise_map]
      exact hs.imp fun {x y} hxy => hR x y hxy
  · simp

/-! ## Selector claims -/

/-- Claim C4: for every origin and candidate stream the selector returns
at most 3 results, and returns fewer than 3 only when the match count
is below 3 (the heap grows unconditionally until it holds 3
entries). -/
theorem c4_top3_bound (distFn : ℚ × ℚ → ℚ × ℚ → ℚ) (connected : Bool)
    (scan : MongoScan) (origin : ℚ × ℚ) (filter : String) :
    (search_restaurants distFn connected scan origin filter).1.length ≤ 3 ∧
      ((search_restaurants distFn connected scan origin filter).1.length < 3 →
        (search_restaurants distFn connected scan origin filter).2 < 3) := by
  unfold search_restaurants
  split
  · cases scan with
    | fail => simp
    | docs cands =>
      obtain ⟨-, hl⟩ := foldl_inv distFn origin filter cands
        ([], 0) ⟨List.sorted_nil, by simp⟩
      unfold select heapToResults
      dsimp only
      simp only [List.length_reverse, List.length_map]
      omega
  · simp

/-- Witness for C4 at a concrete stream of one matching candidate. -/
theorem c4_top3_bound_witness :
    (search_restaurants (fun _ _ => 1) true
        (.docs [⟨some "A", none, some (1, 2)⟩]) (0, 0) "").1.length ≤ 3 :=
  (c4_top3_bound (fun _ _ => 1) true
      (.docs [⟨some "A", none, some (1, 2)⟩]) (0, 0) "").1

/-- Claim C5: the live result sequence is sorted in non-decreasing
order of `distance_km` (negated-distance heap, popped then
reversed). -/
theorem c5_sorted_by_distance (distFn : ℚ × ℚ → ℚ × ℚ → ℚ)
    (connected : Bool) (scan : MongoScan) (origin : ℚ × ℚ)
    (filter : String) :
    List.Pairwise (fun a b : RankedResult => a.distance_km ≤ b.distance_km)
      (search_restaurants distFn connected scan origin filter).1 :=
  results_pairwise distFn connected scan origin filter fun x y hxy => by
    have := heapLE_fst hxy
    dsimp [toRanked]
    linarith

/-- One crash-aware scan step that returns normally counts the
candidate exactly when it has a coordinate and passes the filter, no
matter what the heap did. -/
theorem selectStepPy_count (distFn : ℚ × ℚ → ℚ × ℚ → ℚ)
    (origin : ℚ × ℚ) (filter : String) (st : List HeapEntry × ℕ)
    (c : Candidate) (st' : List HeapEntry × ℕ)
    (h : selectStepPy distFn origin filter st c = .ok st') :
    st'.2 = st.2 + (if passes filter c then 1 else 0) := by
  unfold selectStepPy passes at *
  cases hc : c.coords with
  | none =>
    rw [hc] at h
    cases h
    simp [hc]
  | some pos =>
    rw [hc] at h
    simp only [hc, Option.isSome_some, Bool.true_and] at h ⊢
    by_cases hf : (filter == "" || filter == normCuisine c.cuisine) = true
    · simp only [hf, if_true] at h ⊢
      split at h
      · split at h
        · exact absurd h (by simp)
        · cases h
          rfl
      · split at h
        · split at h
          · exact absurd h (by simp)
          · cases h
            rfl
        · cases h
          rfl
    · simp only [Bool.not_eq_true] at hf
      simp only [hf] at h ⊢
      cases h
      simp

/-- Through a completed crash-aware scan the count is the exact
number of passing candidates. -/
theorem scanPy_count (distFn : ℚ × ℚ → ℚ × ℚ → ℚ) (origin : ℚ × ℚ)
    (filter : String) (cands : List Candidate)
    (st st' : List HeapEntry × ℕ)
    (h : scanPy distFn origin filter st cands = .ok st') :
    st'.2 = st.2 + cands.countP (passes filter) := by
  induction cands generalizing st with
  | nil =>
    unfold scanPy at h
    cases h
    simp
  | cons c cs ih =>
    unfold scanPy at h
    split at h
    · exact absurd h (by simp)
    · rename_i st1 hstep
      rw [ih st1 h, selectStepPy_count distFn origin filter st c st1 hstep,
        List.countP_cons]
      split <;> simp_all <;> omega

/-- Claim C6 (amended): on every candidate stream on which the scan
completes without a raising heap comparison, `total_count` equals the
exact number of candidates with an extractable coordinate that pass
the cuisine filter, independent of top-3 membership, and
coordinate-less candidates are never counted; on a stream where a
heap-tuple comparison raises, the handler at lines 521-523 makes
`search_restaurants` return `([], 0)` instead. -/
theorem c6_matchCount_on_completion (distFn : ℚ × ℚ → ℚ × ℚ → ℚ)
    (origin : ℚ × ℚ) (filter : String) (cands : List Candidate) :
    (∀ st, selectPy distFn origin filter cands = .ok st →
        st.2 = cands.countP (passes filter)) ∧
      (selectPy distFn origin filter cands = .error () →
        search_restaurants_py distFn true (.docs cands) origin filter =
          ([], 0)) := by
  constructor
  · intro st h
    unfold selectPy at h
    split at h
    · exact absurd h (by simp)
    · rename_i heap cnt hscan
      split at h
      · exact absurd h (by simp)
      · cases h
        have := scanPy_count distFn origin filter cands ([], 0) (heap, cnt)
          hscan
        simpa using this
  · intro herr
    simp [search_restaurants_py, herr]

/-- Witness for C6 (amended) on a one-candidate stream whose scan
completes. -/
theorem c6_matchCount_on_completion_witness :
    (([⟨"A", 1, some "x"⟩], 1) : List RankedResult × ℕ).2 =
      [(⟨some "A", some "x", some (1, 1)⟩ : Candidate)].countP
        (passes "") :=
  (c6_matchCount_on_completion (fun _ _ => 1) (0, 0) ""
      [⟨some "A", some "x", some (1, 1)⟩]).1
    ([⟨"A", 1, some "x"⟩], 1) (by rfl)

/-- Counterexample to C6 as stated for every stream: two matching
candidates at the same coordinates with the same name, one with a
string cuisine and one with a null cuisine, make `heappush` compare
`(-1, A, null)` against `(-1, A, x)`; the comparison raises
`TypeError`, the handler at lines 521-523 returns `([], 0)`, and the
reported match count is 0 although exactly 2 candidates pass the
filter. -/
theorem c6_matchCount_counterexample :
    search_restaurants_py (fun _ _ => 1) true
        (.docs [⟨some "A", some "x", some (1, 1)⟩,
          ⟨some "A", none, some (1, 1)⟩]) (0, 0) "" = ([], 0) ∧
      [(⟨some "A", some "x", some (1, 1)⟩ : Candidate),
        ⟨some "A", none, some (1, 1)⟩].countP (passes "") = 2 := by
  constructor
  · rfl
  · rfl

/-- Claim C7: with a full heap, a matching candidate replaces the
current worst (largest-distance) entry exactly when its distance is
strictly smaller; a distance equal to the current worst does not
evict. -/
theorem c7_strict_eviction (distFn : ℚ × ℚ → ℚ × ℚ → ℚ)
    (origin : ℚ × ℚ) (filter : String) (cnt : ℕ) (c : Candidate)
    (pos : ℚ × ℚ) (heap : List HeapEntry)
    (hpos : c.coords = some pos)
    (hmatch : (filter == "" || filter == normCuisine c.cuisine) = true)
    (hs : heap.Sorted heapLE) (hlen : heap.length = 3) :
    (∀ e ∈ heap, -e.1 ≤ -heap.headI.1) ∧
      (-heap.headI.1 ≤ distFn origin pos →
        (selectStep distFn origin filter (heap, cnt) c).1 = heap) ∧
      (distFn origin pos < -heap.headI.1 →
        (selectStep distFn origin filter (heap, cnt) c).1.Perm
          ((-distFn origin pos, c.name.getD "Sans nom", c.cuisine) ::
            heap.tail)) := by
  have hne : heap ≠ [] := by
    intro h
    rw [h] at hlen
    simp at hlen
  have hnotlt : ¬ heap.length < 3 := by omega
  refine ⟨?_, ?_, ?_⟩
  · intro e he
    exact neg_le_neg (sorted_head_min hs hne e he)
  · intro hge
    unfold selectStep
    rw [hpos]
    simp only [hmatch, if_true, if_neg hnotlt, if_neg (not_lt.mpr hge)]
  · intro hlt
    unfold selectStep
    rw [hpos]
    simp only [hmatch, if_true, if_neg hnotlt, if_pos hlt]
    exact heapPush_perm _ _

/-- Witness for C7: a heap holding distances 1, 2 and 3, and a new
matching candidate at distance exactly 3 (equal to the worst), which
is not inserted. -/
theorem c7_strict_eviction_witness :
    (selectStep (fun _ _ => 3) (0, 0) ""
        (([(-3, "C", none), (-2, "B", none), (-1, "A", none)], 3) :
          List HeapEntry × ℕ)
        ⟨some "D", none, some (1, 1)⟩).1 =
      [(-3, "C", none), (-2, "B", none), (-1, "A", none)] :=
  (c7_strict_eviction (fun _ _ => 3) (0, 0) "" 3
      ⟨some "D", none, some (1, 1)⟩ (1, 1)
      [(-3, "C", none), (-2, "B", none), (-1, "A", none)] rfl rfl
      (by
        norm_num [List.sorted_cons, heapLE, cuLE])
      rfl).2.1 (by norm_num)

/-- Claim C9: among results with exactly equal distances, the output
order after the final `reverse()` is by descending name (the second
heap-tuple component), not by insertion order. -/
theorem c9_equal_distance_name_order (distFn : ℚ × ℚ → ℚ × ℚ → ℚ)
    (connected : Bool) (scan : MongoScan) (origin : ℚ × ℚ)
    (filter : String) :
    List.Pairwise
      (fun a b : RankedResult =>
        a.distance_km = b.distance_km → b.name ≤ a.name)
      (search_restaurants distFn connected scan origin filter).1 :=
  results_pairwise distFn connected scan origin filter fun x y hxy => by
    dsimp [toRanked]
    intro hd
    exact heapLE_name hxy (by linarith)

/-! ## Cache lemmas -/

/-- On a healthy backend a store flushes when at capacity and then
appends exactly one row built from the rounded coordinates, the
null-normalised cuisine and the first three results. -/
theorem update_cache_ok_eq (b : PgBackend) (lat lon : ℚ) (f : String)
    (R : List RankedResult) (hok : b.ok) :
    update_cache b lat lon f R =
      { b with
        entries :=
          (if 20 ≤ b.entries.length then [] else b.entries) ++
            [{ lat := pgRound6 lat, lon := pgRound6 lon
               cuisine := if f = "" then none else some f
               payload := R.take 3, createdAt := b.clock }]
        clock := b.clock + 1 } := by
  obtain ⟨hc, h1, h2, h3, h4, h5⟩ := hok
  unfold update_cache update_cacheE insertRow
  rw [hc]
  simp only [h1, h2, h3, Bool.false_eq_true, if_false, ge_iff_le]
  by_cases h : 20 ≤ b.entries.length
  · simp only [if_pos h]
    simp
  · simp only [if_neg h]
    simp

theorem update_cache_ok_preserved (b : PgBackend) (lat lon : ℚ)
    (f : String) (R : List RankedResult) (hok : b.ok) :
    (update_cache b lat lon f R).ok := by
  rw [update_cache_ok_eq b lat lon f R hok]
  exact hok

theorem update_cache_size (b : PgBackend) (lat lon : ℚ) (f : String)
    (R : List RankedResult) (hok : b.ok) :
    (update_cache b lat lon f R).entries.length =
      if 20 ≤ b.entries.length then 1 else b.entries.length + 1 := by
  rw [update_cache_ok_eq b lat lon f R hok]
  split <;> simp


theorem storeMany_ok (coords : List (ℚ × ℚ)) (b : PgBackend)
    (hok : b.ok) : (storeMany b coords).ok := by
  induction coords generalizing b with
  | nil => exact hok
  | cons p ps ih =>
    exact ih _ (update_cache_ok_preserved b p.1 p.2 "" [⟨"A", 1, none⟩] hok)

theorem storeMany_size (coords : List (ℚ × ℚ)) (b : PgBackend)
    (hok : b.ok) (hcap : b.entries.length + coords.length ≤ 20) :
    (storeMany b coords).entries.length =
      b.entries.length + coords.length := by
  induction coords generalizing b with
  | nil => simp [storeMany]
  | cons p ps ih =>
    have hlt : ¬ 20 ≤ b.entries.length := by simp at hcap; omega
    have h1 :
        (update_cache b p.1 p.2 "" [⟨"A", 1, none⟩]).entries.length =
          b.entries.length + 1 := by
      rw [update_cache_size _ _ _ _ _ hok, if_neg hlt]
    have := ih (update_cache b p.1 p.2 "" [⟨"A", 1, none⟩])
      (update_cache_ok_preserved b p.1 p.2 "" [⟨"A", 1, none⟩] hok)
      (by rw [h1]; simp at hcap ⊢; omega)
    unfold storeMany at this ⊢
    rw [List.foldl_cons, this, h1]
    simp
    omega

/-- Claim C2: after any store on a healthy backend the table holds at
most 20 entries (count, flush on `>= 20`, then a single insert); in
particular 20 successive stores at distinct coordinates leave 20
entries and a 21st store leaves exactly 1. -/
theorem c2_capacity_and_eviction :
    (∀ (b : PgBackend) (lat lon : ℚ) (f : String)
        (R : List RankedResult), b.ok →
        (update_cache b lat lon f R).entries.length ≤ 20) ∧
      (storeMany emptyBackend (scenarioCoords 20)).entries.length = 20 ∧
      (update_cache (storeMany emptyBackend (scenarioCoords 20)) 41 (-74)
          "" [⟨"A", 1, none⟩]).entries.length = 1 := by
  have hlen : (scenarioCoords 20).length = 20 := by
    unfold scenarioCoords
    rw [List.length_map, List.length_range]
  have hsize20 :
      (storeMany emptyBackend (scenarioCoords 20)).entries.length = 20 := by
    have h := storeMany_size (scenarioCoords 20) emptyBackend
      (by simp [emptyBackend, PgBackend.ok])
      (by rw [hlen]; simp [emptyBackend])
    rw [hlen] at h
    simpa [emptyBackend] using h
  refine ⟨?_, hsize20, ?_⟩
  · intro b lat lon f R hok
    rw [update_cache_size _ _ _ _ _ hok]
    split <;> omega
  · rw [update_cache_size _ _ _ _ _
      (storeMany_ok _ _ (by simp [emptyBackend, PgBackend.ok])),
      if_pos (le_of_eq hsize20.symm)]

/-- Witness for C2 on the healthy empty backend. -/
theorem c2_capacity_and_eviction_witness :
    (update_cache emptyBackend 40 (-74) "" []).entries.length ≤ 20 :=
  c2_capacity_and_eviction.1 emptyBackend 40 (-74) "" []
    (by simp [emptyBackend, PgBackend.ok])

/-- A row selected by `latestEntry` comes from the list. -/
theorem latestPick_foldl_mem (l : List CacheEntry)
    (acc : Option CacheEntry) (m : CacheEntry)
    (h : l.foldl latestPick acc = some m) : m ∈ l ∨ acc = some m := by
  induction l generalizing acc with
  | nil => exact Or.inr h
  | cons e es ih =>
    rcases ih (latestPick acc e) h with hm | hm
    · exact Or.inl (List.mem_cons_of_mem _ hm)
    · cases acc with
      | none =>
        rw [show latestPick none e = some e from rfl] at hm
        exact Or.inl (Option.some.inj hm ▸ List.mem_cons_self _ _)
      | some a =>
        rw [show latestPick (some a) e =
            if a.createdAt ≤ e.createdAt then some e else some a from
          rfl] at hm
        split at hm
        · exact Or.inl (Option.some.inj hm ▸ List.mem_cons_self _ _)
        · exact Or.inr hm

/-- A row strictly newer than everything before it is the one
`latestEntry` selects. -/
theorem latestEntry_concat_strict (l : List CacheEntry) (a : CacheEntry)
    (h : ∀ e ∈ l, e.createdAt < a.createdAt) :
    latestEntry (l ++ [a]) = some a := by
  unfold latestEntry
  rw [List.foldl_append]
  cases hl : l.foldl latestPick none with
  | none => rfl
  | some m =>
    have hm : m ∈ l :=
      (latestPick_foldl_mem l none m hl).resolve_right (by simp)
    show (if m.createdAt ≤ a.createdAt then some a else some m) = some a
    rw [if_pos (le_of_lt (h m hm))]

/-- On a healthy backend, looking up right after a store finds the
fresh row whenever it satisfies the tolerance window, regardless of
the older entries (the fresh row is the most recent one). -/
theorem check_cache_after_update (b : PgBackend) (lat lon lat' lon' : ℚ)
    (f : String) (R : List RankedResult) (hok : b.ok)
    (hclock : ∀ e ∈ b.entries, e.createdAt < b.clock)
    (hmatch :
      entryMatches
        { lat := pgRound6 lat, lon := pgRound6 lon
          cuisine := if f = "" then none else some f
          payload := R.take 3, createdAt := b.clock } lat' lon' f = true) :
    check_cache (update_cache b lat lon f R) lat' lon' f =
      some (R.take 3) := by
  obtain ⟨hc, h1, h2, h3, h4, h5⟩ := hok
  rw [update_cache_ok_eq b lat lon f R ⟨hc, h1, h2, h3, h4, h5⟩]
  unfold check_cache check_cacheE
  simp only [h4, h5, Bool.false_eq_true, if_false]
  rw [if_pos hc, List.filter_append]
  rw [show List.filter (fun e => entryMatches e lat' lon' f)
        [{ lat := pgRound6 lat, lon := pgRound6 lon
           cuisine := if f = "" then none else some f
           payload := R.take 3, createdAt := b.clock }] =
      [{ lat := pgRound6 lat, lon := pgRound6 lon
         cuisine := if f = "" then none else some f
         payload := R.take 3, createdAt := b.clock }] from by
    simp [hmatch]]
  rw [latestEntry_concat_strict _ _ (fun e he => by
    show e.createdAt < b.clock
    rcases List.mem_filter.mp he with ⟨hmem, -⟩
    refine hclock e ?_
    split at hmem
    · exact absurd hmem (List.not_mem_nil e)
    · exact hmem)]

/-- Claim C1 (amended): the round-trip law holds for every coordinate
that the `NUMERIC(10, 6)` columns store exactly (both components
multiples of `10 ^ (-6)`): a store followed by a lookup offset by at
most 0.001 on each axis (boundary inclusive) with the same filter
returns exactly the first three stored results, unchanged; an offset
of exactly 0.0011 on either axis misses.  For finer coordinates the
stored value is rounded, and the inclusive 0.0010 boundary can miss
(see the counterexample). -/
theorem c1_cache_round_trip (b : PgBackend) (lat lon lat' lon' : ℚ)
    (f : String) (R : List RankedResult) (hok : b.ok)
    (hclock : ∀ e ∈ b.entries, e.createdAt < b.clock)
    (hlat6 : pgRound6 lat = lat) (hlon6 : pgRound6 lon = lon)
    (hdlat : |lat' - lat| ≤ tol) (hdlon : |lon' - lon| ≤ tol) :
    check_cache (update_cache b lat lon f R) lat' lon' f =
        some (R.take 3) ∧
      (b.entries = [] →
        check_cache (update_cache b lat lon f R) (lat + 11/10000) lon f =
            none ∧
          check_cache (update_cache b lat lon f R) lat (lon + 11/10000) f =
            none) := by
  obtain ⟨hc, h1, h2, h3, h4, h5⟩ := hok
  constructor
  · apply check_cache_after_update b lat lon lat' lon' f R
      ⟨hc, h1, h2, h3, h4, h5⟩ hclock
    obtain ⟨ha, hb⟩ := abs_le.mp hdlat
    obtain ⟨hd, he⟩ := abs_le.mp hdlon
    unfold entryMatches
    simp only [hlat6, hlon6, Bool.and_eq_true, decide_eq_true_eq]
    refine ⟨⟨⟨⟨by linarith, by linarith⟩, by linarith⟩, by linarith⟩, ?_⟩
    split <;> simp
  · intro hemp
    rw [update_cache_ok_eq b lat lon f R ⟨hc, h1, h2, h3, h4, h5⟩]
    unfold check_cache check_cacheE
    simp only [h4, h5, Bool.false_eq_true, if_false]
    rw [if_pos hc, if_pos hc]
    rw [hemp]
    simp only [List.length_nil, ite_self, List.nil_append]
    have htol : tol = 1/1000 := rfl
    constructor
    · rw [show List.filter
            (fun e => entryMatches e (lat + 11/10000) lon f)
            [{ lat := pgRound6 lat, lon := pgRound6 lon
               cuisine := if f = "" then none else some f
               payload := R.take 3, createdAt := b.clock }] = [] from by
        simp only [List.filter_eq_nil_iff, List.mem_singleton,
          forall_eq, entryMatches]
        simp only [hlat6, hlon6, Bool.and_eq_true, decide_eq_true_eq,
          not_and]
        intro hle
        exfalso
        rw [htol] at hle
        linarith]
      rfl
    · rw [show List.filter
            (fun e => entryMatches e lat (lon + 11/10000) f)
            [{ lat := pgRound6 lat, lon := pgRound6 lon
               cuisine := if f = "" then none else some f
               payload := R.take 3, createdAt := b.clock }] = [] from by
        simp only [List.filter_eq_nil_iff, List.mem_singleton,
          forall_eq, entryMatches]
        simp only [hlat6, hlon6, Bool.and_eq_true, decide_eq_true_eq,
          not_and]
        intro hle1 hle2
        exfalso
        obtain ⟨⟨-, hle⟩, -⟩ := hle1
        rw [htol] at hle
        linarith]
      rfl

/-- Witness for C1: a 4-decimal coordinate, a lookup offset by
exactly +0.001 in latitude and -0.001 in longitude (the inclusive
boundary) and a non-empty filter. -/
theorem c1_cache_round_trip_witness :
    check_cache
        (update_cache emptyBackend (407589/10000) (-739851/10000) "french"
          [⟨"A", 1, some "French"⟩])
        (407589/10000 + 1/1000) (-739851/10000 - 1/1000) "french" =
      some [⟨"A", 1, some "French"⟩] := by
  have h := (c1_cache_round_trip emptyBackend (407589/10000)
    (-739851/10000) (407589/10000 + 1/1000) (-739851/10000 - 1/1000)
    "french" [⟨"A", 1, some "French"⟩]
    (by simp [emptyBackend, PgBackend.ok])
    (by simp [emptyBackend])
    (by unfold pgRound6; rw [if_pos (by norm_num)]; norm_num)
    (by unfold pgRound6; rw [if_neg (by norm_num)]; norm_num)
    (by norm_num [tol, abs_le])
    (by norm_num [tol, abs_le])).1
  simpa using h

/-- Counterexample to C1 as stated for every coordinate: at latitude
40.7589999 (seven decimals) the `NUMERIC(10, 6)` column stores the
rounded value 40.759000, so a lookup offset by exactly 0.001 - which
the claim requires to hit (inclusive boundary) - misses: it returns
`none` instead of the stored results. -/
theorem c1_cache_round_trip_counterexample :
    |(407589999/10000000 - 1/1000 : ℚ) - 407589999/10000000| ≤ tol ∧
      check_cache
          (update_cache emptyBackend (407589999/10000000) (-74) ""
            [⟨"A", 1, none⟩])
          (407589999/10000000 - 1/1000) (-74) "" = none := by
  constructor
  · norm_num [tol, abs_le]
  · simp [check_cache, check_cacheE, update_cache, update_cacheE, insertRow,
      emptyBackend, entryMatches, pgRound6, tol, latestEntry, latestPick]
    norm_num

/-- Claim C8: neither cache operation propagates a collaborator
exception: on a dead connection lookup misses and store is a no-op;
on a failing select or an undecodable payload lookup returns the miss
value `none`; and whenever the store body raises, `update_cache`
returns normally with the state reached at the failure point. -/
theorem c8_cache_failures_absorbed (b : PgBackend) (lat lon : ℚ)
    (cu : String) (R : List RankedResult) :
    (b.connected = false →
      check_cache b lat lon cu = none ∧ update_cache b lat lon cu R = b) ∧
      (b.failSelect = true → check_cache b lat lon cu = none) ∧
      (b.corruptPayload = true → check_cache b lat lon cu = none) ∧
      (b.connected = true →
        ∀ bErr, update_cacheE b lat lon cu R = .error bErr →
          update_cache b lat lon cu R = bErr) := by
  refine ⟨?_, ?_, ?_, ?_⟩
  · intro hdown
    unfold check_cache update_cache
    rw [hdown]
    exact ⟨rfl, rfl⟩
  · intro hsel
    unfold check_cache check_cacheE
    rw [hsel]
    split <;> rfl
  · intro hcor
    unfold check_cache check_cacheE
    by_cases hc : b.connected = true
    · rw [if_pos hc]
      by_cases hsel : b.failSelect = true
      · rw [if_pos hsel]
      · rw [if_neg hsel]
        cases hgl :
            latestEntry (b.entries.filter fun e => entryMatches e lat lon cu)
          with
        | none => rfl
        | some e =>
          rw [hcor]
          rfl
    · rw [if_neg hc]
  · intro hup bErr herr
    unfold update_cache
    rw [hup, herr]
    rfl

/-- Witness for C8 on a backend with a failing select statement. -/
theorem c8_cache_failures_absorbed_witness :
    check_cache { emptyBackend with failSelect := true } 40 (-74) "" =
      none :=
  (c8_cache_failures_absorbed { emptyBackend with failSelect := true }
    40 (-74) "" []).2.1 rfl

/-- Counterexample to C3 as stated: with a failing document-store
scan the top-level query returns a value identical to the one it
returns for a healthy scan that legitimately matches nothing, so no
failure indicator distinguishable in the return contract exists (the
candidate passed in the failing run would otherwise be a match). -/
theorem c3_failure_indicator_counterexample :
    runQuery (fun _ _ => 1) emptyBackend true .fail 40 (-74) "" =
      runQuery (fun _ _ => 1) emptyBackend true (.docs []) 40 (-74) "" :=
  rfl

/-- Claim C3 (amended): when the document store is unreachable or
iteration over it fails, the top-level query returns empty results
with match count 0 and `cache_hit = false`, exactly the value of a
legitimate zero-match live scan; the failure is reported only on the
console, not in the return value. -/
theorem c3_unreachable_returns_empty (distFn : ℚ × ℚ → ℚ × ℚ → ℚ)
    (b : PgBackend) (scan : MongoScan) (lat lon : ℚ) (cu : String)
    (hmiss : (check_cache b lat lon cu).getD [] = []) :
    runQuery distFn b true .fail lat lon cu = ([], 0, false, b) ∧
      runQuery distFn b false scan lat lon cu = ([], 0, false, b) ∧
      runQuery distFn b true (.docs []) lat lon cu = ([], 0, false, b) := by
  have hcc : ∀ r rs, check_cache b lat lon cu ≠ some (r :: rs) := by
    intro r rs h
    rw [h] at hmiss
    exact absurd hmiss (by simp)
  refine ⟨?_, ?_, ?_⟩ <;>
    · unfold runQuery
      cases hc : check_cache b lat lon cu with
      | none => simp [search_restaurants, select, selectStep, heapToResults]
      | some l =>
        cases l with
        | nil => simp [search_restaurants, select, selectStep, heapToResults]
        | cons r rs => exact absurd hc (hcc r rs)

/-- Witness for C3 (amended) on the empty backend. -/
theorem c3_unreachable_returns_empty_witness :
    runQuery (fun _ _ => 1) emptyBackend true .fail 40 (-74) "" =
      ([], 0, false, emptyBackend) :=
  (c3_unreachable_returns_empty (fun _ _ => 1) emptyBackend
    (.docs []) 40 (-74) "" (by rfl)).1

/-- Claim C10: an empty result list never round-trips through the
cache: a cache hit always carries at least one result (an empty
cached list is treated as a miss), and the live path stores back only
when its result list is non-empty (otherwise the backend is
unchanged). -/
theorem c10_no_empty_round_trip (distFn : ℚ × ℚ → ℚ × ℚ → ℚ)
    (b : PgBackend) (connected : Bool) (scan : MongoScan) (lat lon : ℚ)
    (cu : String) :
    ((runQuery distFn b connected scan lat lon cu).2.2.1 = true →
        (runQuery distFn b connected scan lat lon cu).1 ≠ []) ∧
      ((runQuery distFn b connected scan lat lon cu).1 = [] →
        (runQuery distFn b connected scan lat lon cu).2.2.2 = b) ∧
      (check_cache b lat lon cu = some [] →
        (runQuery distFn b connected scan lat lon cu).2.2.1 = false) := by
  unfold runQuery
  cases hc : check_cache b lat lon cu with
  | none =>
    by_cases hcon : connected = true
    · simp only [hcon, if_true]
      by_cases hemp :
          ((search_restaurants distFn true scan (lat, lon) cu).1.mergeSort
            fun a b => decide (a.distance_km ≤ b.distance_km)).isEmpty = true
      · simp [hemp, hcon]
      · simp [hemp, hcon]
        intro h
        exact absurd (List.isEmpty_iff.mpr h) hemp
    · simp [hcon]
  | some l =>
    cases l with
    | nil =>
      by_cases hcon : connected = true
      · simp only [hcon, if_true]
        by_cases hemp :
            ((search_restaurants distFn true scan (lat, lon) cu).1.mergeSort
              fun a b => decide (a.distance_km ≤ b.distance_km)).isEmpty =
              true
        · simp [hemp, hcon]
        · simp [hemp, hcon]
          intro h
          exact absurd (List.isEmpty_iff.mpr h) hemp
      · simp [hcon]
    | cons r rs => simp


/-- Witness for C10: a cached row with an empty payload is treated as
a miss, so the query is not served from the cache. -/
theorem c10_no_empty_round_trip_witness :
    (runQuery (fun _ _ => 1) emptyPayloadBackend true
        (.docs [⟨some "A", none, some (1, 1)⟩]) 40 (-74) "").2.2.1 =
      false :=
  (c10_no_empty_round_trip (fun _ _ => 1) emptyPayloadBackend true
      (.docs [⟨some "A", none, some (1, 1)⟩]) 40 (-74) "").2.2
    (by
      simp [check_cache, check_cacheE, emptyPayloadBackend, emptyBackend,
        entryMatches, tol, latestEntry, latestPick])

end SAE
